import Mathlib

/-!
Verification of the event ingestion and reconciliation pipeline of
`src/auto_update_gemini.py` (the whatsupsingapore auto-updater).

The script is embedded shallowly: its pure helpers become Lean functions on
`List Char`/`String`, its external collaborators (the Google results page,
the HEAD/GET requests of the link check, the Gemini endpoint, the final file
write) become oracle parameters that may fail, mirroring exactly the points
where the Python code catches exceptions or inspects status codes.
-/

namespace WhatsUp

/-- Python `str.lower()` on the ASCII text this program handles: lowercase
each character. -/
def lowerStr (s : String) : String := String.mk (s.data.map Char.toLower)

/-- Does `needle` start at the head of `haystack`? (helper for Python's
substring test `needle in haystack`). -/
def startsWithCL : List Char → List Char → Bool
  | [], _ => true
  | _ :: _, [] => false
  | a :: as, b :: bs => a == b && startsWithCL as bs

/-- Python `needle in haystack`: does `needle` occur contiguously inside
`haystack`? -/
def containsCL (needle : List Char) : List Char → Bool
  | [] => startsWithCL needle []
  | c :: rest => startsWithCL needle (c :: rest) || containsCL needle rest

/-- Python `needle in haystack` on strings. -/
def strContains (haystack needle : String) : Bool :=
  containsCL needle.data haystack.data

/-- A raw search hit before structuring (line 70-75 of the script). -/
structure Candidate where
  title : String
  link : String
  snippet : String
  query : String
deriving Repr, DecidableEq

/-- The fields Gemini fills in for a verified event (the `event` object of
the JSON contract in `verify_event_with_gemini`). -/
structure EventData where
  title : String
  date : String
  category : String
  price : Nat
  venue : String
  description : String
  link : String
  emoji : String
deriving Repr, DecidableEq

/-- A catalog entry: a verified event plus the `id` added at line 290. -/
structure Event extends EventData where
  id : Nat
deriving Repr, DecidableEq

/-- `SEARCH_QUERIES` (lines 22-31). -/
def SEARCH_QUERIES : List String :=
  ["Singapore events December 2025",
   "Singapore concerts 2025 2026",
   "Singapore festivals upcoming",
   "Singapore exhibitions now",
   "things to do Singapore this month",
   "Singapore free events",
   "Singapore Christmas events 2024",
   "Singapore family activities"]

/-- The trusted-domain allowlist (lines 64-69). -/
def EVENT_DOMAINS : List String :=
  ["marinabay", "sentosa", "esplanade", "gardens",
   "sistic", "ticketmaster", "timeout", "marinabaysands",
   "mandai", "rwsentosa", "nhb.gov.sg", "nationalgallery",
   "thehoneycombers", "livenation", "eventbrite", "peatix"]

/-- One `div.g` block of the parsed results page: an optional `h3` text, an
optional `<a>` element (itself carrying an optional `href`), an optional
snippet div. -/
structure RawHit where
  titleElem : Option String
  linkElem : Option (Option String)
  snippetElem : Option String
deriving Repr, DecidableEq

/-- The per-hit body of the loop at lines 52-77: a hit is considered only
when both the title element and the link element are present; the link text
defaults to `""` when the `<a>` has no `href`; the hit survives only when
the lowercased link contains a trusted domain. -/
def hit_to_candidate (query : String) (h : RawHit) : Option Candidate :=
  match h.titleElem, h.linkElem with
  | some title, some href =>
    let link := href.getD ""
    let snippet := h.snippetElem.getD ""
    if EVENT_DOMAINS.any (fun d => strContains (lowerStr link) d) then
      some { title := title, link := link, snippet := snippet, query := query }
    else none
  | _, _ => none

/-- The accumulation of `results` over the parsed hits (lines 52-77). -/
def collect_results (query : String) : List RawHit → List Candidate
  | [] => []
  | h :: rest =>
    match hit_to_candidate query h with
    | some c => c :: collect_results query rest
    | none => collect_results query rest

/-- `search_google_events` (lines 37-83): on transport/parse failure the
whole query yields `[]`; otherwise the surviving hits, truncated to the
first 5 (`results[:5]`). -/
def search_google_events (query : String) (page : Except Unit (List RawHit)) :
    List Candidate :=
  match page with
  | .error _ => []
  | .ok hits => (collect_results query hits).take 5

/-- `verify_link` (lines 86-96): a HEAD request; when it raises, a GET
request; when that raises too, `false`. A response that arrives is compared
against status `200` exactly. -/
def verify_link (headResp getResp : Except Unit Nat) : Bool :=
  match headResp with
  | .ok status => status == 200
  | .error _ =>
    match getResp with
    | .ok status => status == 200
    | .error _ => false

/-- The outcomes of the Gemini call in `verify_event_with_gemini`
(lines 146-194) restricted to complete payloads: the POST raises; it
returns a non-200 status; the payload has no candidates; the candidate text
does not parse as JSON (including after fence stripping); or it parses to
`is_valid` plus an optional, fully populated event object. This view is
adequate for runs whose verified payloads carry every field (the runs the
id and staleness claims exercise); `GeminiRawResp` below is the faithful
general model, in which a parsed event object may lack fields. -/
inductive GeminiResp where
  | transportFailed : GeminiResp
  | badStatus : Nat → GeminiResp
  | noCandidates : GeminiResp
  | unparsable : GeminiResp
  | parsed : Bool → Option EventData → GeminiResp
deriving Repr, DecidableEq

/-- `verify_event_with_gemini` (lines 103-194) on complete payloads: every
failure path (transport error, non-200 status, empty candidate list, JSON
parse error, `is_valid` false, missing `event` object — the last raises
`KeyError`, caught at line 192) returns `None`; only a parsed payload with
truthy `is_valid` and a present event returns the event. The source returns
`result['event']` without validating its fields; the faithful model of that
behaviour is `verify_event_with_gemini_raw` below, used for the
error-handling claim. -/
def verify_event_with_gemini (resp : GeminiResp) : Option EventData :=
  match resp with
  | .parsed true (some ev) => some ev
  | _ => none

/-- The dedup key of line 225: `f"{title.lower()}_{venue.lower()}"`. -/
def event_key (e : Event) : String :=
  lowerStr e.title ++ "_" ++ lowerStr e.venue

/-- The loop of `deduplicate_events` (lines 219-230), with the `seen` set
made explicit. -/
def dedup_from (seen : List String) : List Event → List Event
  | [] => []
  | e :: rest =>
    if event_key e ∈ seen then dedup_from seen rest
    else e :: dedup_from (event_key e :: seen) rest

/-- `deduplicate_events` (lines 219-230): keep the first event per key. -/
def deduplicate_events (events : List Event) : List Event :=
  dedup_from [] events

/-- The recurrence markers of line 240. -/
def RECURRENCE_WORDS : List String := ["daily", "weekend", "until"]

/-- The forward month abbreviations of line 242. -/
def FUTURE_MONTHS : List String := ["dec", "jan", "feb", "mar", "apr", "may", "jun"]

/-- The retention test of lines 238-243 as a predicate on the `date` text
alone. -/
def still_relevant (date : String) : Bool :=
  RECURRENCE_WORDS.any (fun w => strContains (lowerStr date) w)
    || FUTURE_MONTHS.any (fun m => strContains (lowerStr date) m)

/-- `remove_past_events` (lines 233-245), mirroring the two-branch loop:
keep an event when its lowercased date mentions a recurrence word, else
when it mentions a forward month, else drop it. -/
def remove_past_events : List Event → List Event
  | [] => []
  | e :: rest =>
    if RECURRENCE_WORDS.any (fun w => strContains (lowerStr e.date) w) then
      e :: remove_past_events rest
    else if FUTURE_MONTHS.any (fun m => strContains (lowerStr e.date) m) then
      e :: remove_past_events rest
    else remove_past_events rest

/-- The external collaborators of one run: the results page per query, the
HEAD and GET requests of `verify_link` per URL, and the Gemini endpoint per
candidate. An `Except.error` models a raised exception. -/
structure Collab where
  searchPage : String → Except Unit (List RawHit)
  headReq : String → Except Unit Nat
  getReq : String → Except Unit Nat
  gemini : Candidate → GeminiResp

/-- The per-candidate body of the loop at lines 277-294: skip when the link
fails to verify; skip when Gemini rejects; otherwise append the event with
`id = len(existing_events) + len(new_events) + 1` (line 290). -/
def process_candidate (c : Collab) (existingLen : Nat)
    (acc : List Event) (cand : Candidate) : List Event :=
  if verify_link (c.headReq cand.link) (c.getReq cand.link) then
    match verify_event_with_gemini (c.gemini cand) with
    | some ev => acc ++ [{ toEventData := ev, id := existingLen + acc.length + 1 }]
    | none => acc
  else acc

/-- The per-query body of the loop at lines 271-294. -/
def process_query (c : Collab) (existingLen : Nat)
    (acc : List Event) (query : String) : List Event :=
  (search_google_events query (c.searchPage query)).foldl
    (process_candidate c existingLen) acc

/-- The `new_events` list accumulated over all of `SEARCH_QUERIES`
(lines 268-294). -/
def collect_new_events (c : Collab) (existingLen : Nat) : List Event :=
  SEARCH_QUERIES.foldl (process_query c existingLen) []

/-- The catalog a run computes and saves (lines 264-300): staleness-filter
the loaded events, collect the new verified events, concatenate, dedup. -/
def merged_catalog (c : Collab) (loaded : List Event) : List Event :=
  deduplicate_events (remove_past_events loaded ++
    collect_new_events c (remove_past_events loaded).length)

/-- `daily_event_update` (lines 252-311) with the loaded catalog and the
file write as parameters: compute the merged catalog, save it (a raised
exception propagates — `save_events` is not wrapped in any `try`), return
it. -/
def daily_event_update (c : Collab) (saveEvents : List Event → Except Unit Unit)
    (loaded : List Event) : Except Unit (List Event) :=
  match saveEvents (merged_catalog c loaded) with
  | .ok _ => .ok (merged_catalog c loaded)
  | .error e => .error e

/-- The Link Validator as §4.2 of the spec words it: a header-only attempt;
on failure or on an ambiguous (non-success-class) response, a full fetch;
true exactly when some response with a status in the HTTP-success class
(2xx) is obtained. Stated for comparison with `verify_link` above. -/
def verify_link_claimed (headResp getResp : Except Unit Nat) : Bool :=
  let success : Nat → Bool := fun s => decide (200 ≤ s) && decide (s < 300)
  match headResp with
  | .ok s =>
    if success s then true
    else
      match getResp with
      | .ok t => success t
      | .error _ => false
  | .error _ =>
    match getResp with
    | .ok t => success t
    | .error _ => false

/-! ### Concrete runs used to settle the claims on explicit inputs -/

/-- The first seed query. -/
def QUERY1 : String := "Singapore events December 2025"

/-- A well-formed raw hit on an allowlisted domain. -/
def hitB : RawHit :=
  { titleElem := some "b", linkElem := some (some "https://www.sistic.com.sg/x"),
    snippetElem := some "s" }

/-- The event Gemini returns for that hit: a recurring ("Daily") event. -/
def evDataB : EventData :=
  { title := "b", date := "Daily", category := "festivals", price := 0,
    venue := "w", description := "d", link := "https://www.sistic.com.sg/x",
    emoji := "x" }

/-- Collaborators for a run in which the first query yields one hit, every
other query yields nothing, the link checks succeed with 200, and Gemini
verifies the hit as `evDataB`. -/
def collabB : Collab :=
  { searchPage := fun q => if q = QUERY1 then .ok [hitB] else .ok []
    headReq := fun _ => .ok 200
    getReq := fun _ => .ok 200
    gemini := fun _ => .parsed true (some evDataB) }

/-- A recurring existing event that carries `id = 2`. -/
def eventA2 : Event :=
  { title := "a", date := "Daily", category := "arts", price := 0,
    venue := "v", description := "d", link := "l", emoji := "x", id := 2 }

/-- An existing catalog whose one surviving entry carries `id = 2` (as
arises when an earlier run's catalog lost its id-1 entry to the staleness
filter). -/
def loadedId2 : List Event := [eventA2]

/-- An existing catalog whose one surviving entry carries `id = 5`. -/
def loadedId5 : List Event :=
  [{ title := "a", date := "Daily", category := "arts", price := 0,
     venue := "v", description := "d", link := "l", emoji := "x", id := 5 }]

/-- An event Gemini could return whose date text ("12 Nov") mentions no
recurrence word and no forward month. -/
def evDataNov : EventData :=
  { title := "n", date := "12 Nov", category := "festivals", price := 0,
    venue := "w", description := "d", link := "https://www.sistic.com.sg/x",
    emoji := "x" }

/-- The same collaborators as `collabB` except that Gemini returns the
November-dated event. -/
def collabNov : Collab :=
  { collabB with gemini := fun _ => .parsed true (some evDataNov) }

/-! ### Helper lemmas about the staleness filter -/

/-- The loop of `remove_past_events` is the filter by `still_relevant` of
the `date` field alone. -/
theorem remove_past_events_eq_filter (events : List Event) :
    remove_past_events events = events.filter (fun e => still_relevant e.date) := by
  induction events with
  | nil => rfl
  | cons e rest ih =>
    by_cases h1 : RECURRENCE_WORDS.any (fun w => strContains (lowerStr e.date) w) = true
    · simp [remove_past_events, List.filter, still_relevant, h1, ih]
    · by_cases h2 : FUTURE_MONTHS.any (fun m => strContains (lowerStr e.date) m) = true
      · simp [remove_past_events, List.filter, still_relevant, h1, h2, ih]
      · simp [remove_past_events, List.filter, still_relevant, h1, h2, ih]

/-! ### Helper lemmas about deduplication -/

/-- The dedup loop yields a sublist of its input: kept events appear
unchanged and in their original relative order. -/
theorem dedup_from_sublist (l : List Event) :
    ∀ seen, List.Sublist (dedup_from seen l) l := by
  induction l with
  | nil => intro seen; simp [dedup_from]
  | cons e rest ih =>
    intro seen
    by_cases h : event_key e ∈ seen
    · simpa [dedup_from, h] using (ih seen).cons e
    · simpa [dedup_from, h] using (ih (event_key e :: seen)).cons₂ e

/-- A kept event's key was not in the `seen` set the loop started from. -/
theorem key_not_seen_of_mem_dedup_from (l : List Event) :
    ∀ seen e, e ∈ dedup_from seen l → event_key e ∉ seen := by
  induction l with
  | nil => intro seen e he; simp [dedup_from] at he
  | cons a rest ih =>
    intro seen e he
    by_cases h : event_key a ∈ seen
    · exact ih seen e (by simpa [dedup_from, h] using he)
    · rw [dedup_from, if_neg h] at he
      rcases List.mem_cons.mp he with rfl | he'
      · exact h
      · intro hs
        exact ih _ e he' (List.mem_cons_of_mem _ hs)

/-- The keys of the dedup loop's output are pairwise distinct. -/
theorem dedup_from_keys_nodup (l : List Event) :
    ∀ seen, ((dedup_from seen l).map event_key).Nodup := by
  induction l with
  | nil => intro seen; simp [dedup_from]
  | cons a rest ih =>
    intro seen
    by_cases h : event_key a ∈ seen
    · simpa [dedup_from, h] using ih seen
    · rw [dedup_from, if_neg h]
      refine List.nodup_cons.mpr ⟨?_, ih _⟩
      intro hmem
      rcases List.mem_map.mp hmem with ⟨e, he, hkey⟩
      exact key_not_seen_of_mem_dedup_from rest _ e he
        (hkey ▸ List.mem_cons_self _ _)

/-- Every key of the input that the loop has not already seen is represented
in the output: deduplication drops only later repetitions of a key. -/
theorem key_mem_dedup_from (l : List Event) :
    ∀ seen e, e ∈ l → event_key e ∉ seen →
      event_key e ∈ (dedup_from seen l).map event_key := by
  induction l with
  | nil => intro seen e he; simp at he
  | cons a rest ih =>
    intro seen e he hs
    rcases List.mem_cons.mp he with rfl | he'
    · by_cases h : event_key e ∈ seen
      · exact absurd h hs
      · rw [dedup_from, if_neg h]; simp
    · by_cases h : event_key a ∈ seen
      · rw [dedup_from, if_pos h]; exact ih seen e he' hs
      · rw [dedup_from, if_neg h]
        by_cases hk : event_key e = event_key a
        · simp [hk]
        · have : event_key e ∉ event_key a :: seen := by
            intro hmem
            rcases List.mem_cons.mp hmem with h' | h'
            · exact hk h'
            · exact hs h'
          simpa using Or.inr (ih _ e he' this)

/-- Splitting a dedup run over an append: an output event came from the
first part's run, or from a run over the second part whose `seen` set covers
every key of the first part. -/
theorem mem_dedup_from_append (ex : List Event) :
    ∀ (nw : List Event) (seen : List String) (n : Event),
      n ∈ dedup_from seen (ex ++ nw) →
      n ∈ dedup_from seen ex ∨
        ∃ seen2 : List String, (∀ e ∈ ex, event_key e ∈ seen2) ∧
          (∀ k ∈ seen, k ∈ seen2) ∧ n ∈ dedup_from seen2 nw := by
  induction ex with
  | nil =>
    intro nw seen n hn
    exact Or.inr ⟨seen, by simp, fun k hk => hk, by simpa using hn⟩
  | cons a ex' ih =>
    intro nw seen n hn
    by_cases h : event_key a ∈ seen
    · rw [List.cons_append, dedup_from, if_pos h] at hn
      rcases ih nw seen n hn with hl | ⟨seen2, hcov, hsub, hmem⟩
      · exact Or.inl (by rw [dedup_from, if_pos h]; exact hl)
      · refine Or.inr ⟨seen2, ?_, hsub, hmem⟩
        intro e he
        rcases List.mem_cons.mp he with rfl | he'
        · exact hsub _ h
        · exact hcov e he'
    · rw [List.cons_append, dedup_from, if_neg h] at hn
      rcases List.mem_cons.mp hn with rfl | hn'
      · exact Or.inl (by rw [dedup_from, if_neg h]; exact List.mem_cons_self _ _)
      · rcases ih nw (event_key a :: seen) n hn' with hl | ⟨seen2, hcov, hsub, hmem⟩
        · exact Or.inl (by rw [dedup_from, if_neg h]; exact List.mem_cons_of_mem _ hl)
        · refine Or.inr ⟨seen2, ?_, ?_, hmem⟩
          · intro e he
            rcases List.mem_cons.mp he with rfl | he'
            · exact hsub _ (List.mem_cons_self _ _)
            · exact hcov e he'
          · intro k hk
            exact hsub k (List.mem_cons_of_mem _ hk)

/-- When the first part's keys are pairwise distinct and unseen, every event
of the first part survives the dedup run over the append. -/
theorem mem_dedup_from_of_mem_left (ex : List Event) :
    ∀ (nw : List Event) (seen : List String),
      (ex.map event_key).Nodup →
      (∀ k ∈ ex.map event_key, k ∉ seen) →
      ∀ e ∈ ex, e ∈ dedup_from seen (ex ++ nw) := by
  induction ex with
  | nil => intro nw seen _ _ e he; simp at he
  | cons a ex' ih =>
    intro nw seen hnd hout e he
    have ha : event_key a ∉ seen := hout _ (by simp)
    rw [List.cons_append, dedup_from, if_neg ha]
    rcases List.mem_cons.mp he with rfl | he'
    · exact List.mem_cons_self _ _
    · have hnd' : event_key a ∉ ex'.map event_key ∧ (ex'.map event_key).Nodup := by
        rw [List.map_cons] at hnd
        exact List.nodup_cons.mp hnd
      refine List.mem_cons_of_mem _ (ih nw (event_key a :: seen) hnd'.2 ?_ e he')
      intro k hk hmem
      rcases List.mem_cons.mp hmem with rfl | hmem'
      · exact hnd'.1 hk
      · exact hout k (by simp [hk]) hmem'

/-- The dedup loop is idempotent from any starting `seen` set. -/
theorem dedup_from_idem (l : List Event) :
    ∀ seen, dedup_from seen (dedup_from seen l) = dedup_from seen l := by
  induction l with
  | nil => intro seen; rfl
  | cons a rest ih =>
    intro seen
    by_cases h : event_key a ∈ seen
    · simp [dedup_from, h, ih seen]
    · rw [dedup_from, if_neg h, dedup_from, if_neg h, ih (event_key a :: seen)]

/-! ### Helper lemmas about candidate discovery -/

/-- The accumulation loop over the parsed hits is `filterMap`. -/
theorem collect_results_eq_filterMap (query : String) (hits : List RawHit) :
    collect_results query hits = hits.filterMap (hit_to_candidate query) := by
  induction hits with
  | nil => rfl
  | cons h rest ih =>
    cases hc : hit_to_candidate query h <;>
      simp [collect_results, List.filterMap_cons, hc, ih]

/-- A hit that becomes a candidate had both its title element and its link
element present. -/
theorem hit_to_candidate_needs_title_link (query : String) (h : RawHit)
    (cand : Candidate) (hc : hit_to_candidate query h = some cand) :
    h.titleElem ≠ none ∧ h.linkElem ≠ none := by
  cases ht : h.titleElem with
  | none => rw [hit_to_candidate, ht] at hc; cases hc
  | some t =>
    cases hl : h.linkElem with
    | none => rw [hit_to_candidate, ht, hl] at hc; cases hc
    | some href => exact ⟨by simp [ht], by simp [hl]⟩

/-! ### Helper lemmas about the orchestrator's folds -/

/-- The id invariant of the candidate fold: when the accumulator's ids are
the consecutive run starting at `existingLen + 1`, they stay so, because a
kept event is appended with id `existingLen + acc.length + 1` (line 290). -/
theorem foldl_process_candidate_ids (c : Collab) (existingLen : Nat)
    (cands : List Candidate) :
    ∀ acc : List Event,
      acc.map Event.id = List.range' (existingLen + 1) acc.length →
      (cands.foldl (process_candidate c existingLen) acc).map Event.id =
        List.range' (existingLen + 1)
          (cands.foldl (process_candidate c existingLen) acc).length := by
  induction cands with
  | nil => intro acc h; exact h
  | cons cand rest ih =>
    intro acc h
    rw [List.foldl_cons]
    refine ih _ ?_
    by_cases hv : verify_link (c.headReq cand.link) (c.getReq cand.link) = true
    · cases hg : verify_event_with_gemini (c.gemini cand) with
      | none => simpa [process_candidate, hv, hg] using h
      | some ev =>
        rw [process_candidate, if_pos hv, hg]
        rw [List.map_append, h, List.length_append]
        simp only [List.map_cons, List.map_nil, List.length_cons, List.length_nil]
        rw [List.range'_concat]
        congr 2
        omega
    · simpa [process_candidate, hv] using h

/-- The id invariant lifted to the query fold. -/
theorem foldl_process_query_ids (c : Collab) (existingLen : Nat)
    (qs : List String) :
    ∀ acc : List Event,
      acc.map Event.id = List.range' (existingLen + 1) acc.length →
      (qs.foldl (process_query c existingLen) acc).map Event.id =
        List.range' (existingLen + 1)
          (qs.foldl (process_query c existingLen) acc).length := by
  induction qs with
  | nil => intro acc h; exact h
  | cons q rest ih =>
    intro acc h
    rw [List.foldl_cons]
    exact ih _ (foldl_process_candidate_ids c existingLen _ acc h)

/-- The collected new events carry the consecutive ids
`existingLen + 1, existingLen + 2, …`, in the order they were verified. -/
theorem collect_new_events_ids (c : Collab) (existingLen : Nat) :
    (collect_new_events c existingLen).map Event.id =
      List.range' (existingLen + 1) (collect_new_events c existingLen).length := by
  exact foldl_process_query_ids c existingLen SEARCH_QUERIES [] (by simp)

/-- The existing "Glow Festival" entry of the spec's merge scenario. -/
def glowExisting : Event :=
  { title := "Glow Festival", date := "Daily", category := "festivals",
    price := 0, venue := "Gardens", description := "d", link := "l",
    emoji := "x", id := 1 }

/-- A newly verified event with the same title and venue as `glowExisting`
(hence the same dedup key) but its own id and link. -/
def glowNew : Event :=
  { title := "Glow Festival", date := "Daily", category := "festivals",
    price := 0, venue := "Gardens", description := "d2", link := "l2",
    emoji := "x", id := 2 }

/-! ### The faithful partial-payload model of verification

`verify_event_with_gemini` checks only `result.get('is_valid')` and (via the
success print at line 180) `result['event']['title']` before returning
`result['event']` unvalidated. A structurally valid payload whose event
object lacks other fields therefore flows into `new_events`; the missing
field is first touched by `deduplicate_events` at line 225 (title and venue),
outside every `try`, where the `KeyError` aborts the run before `save`.
This model types the event object with optional fields and makes dedup
fallible, so that path is representable. -/

/-- The event object of a parsed Gemini payload as it really is: a JSON
dict that may lack any field. -/
structure EventPayload where
  title : Option String
  date : Option String
  category : Option String
  price : Option Nat
  venue : Option String
  description : Option String
  link : Option String
  emoji : Option String
deriving Repr, DecidableEq

/-- The outcomes of the Gemini call with the event object unconstrained:
the POST raises; non-200 status; no candidates; unparsable candidate text;
or a parsed payload of `is_valid` plus an optional, possibly partial event
object. -/
inductive GeminiRawResp where
  | transportFailed : GeminiRawResp
  | badStatus : Nat → GeminiRawResp
  | noCandidates : GeminiRawResp
  | unparsable : GeminiRawResp
  | parsed : Bool → Option EventPayload → GeminiRawResp
deriving Repr, DecidableEq

/-- `verify_event_with_gemini` (lines 103-194) faithfully: all transport,
status, candidate and parse failures return `None`; a parsed payload with
truthy `is_valid` has `result['event']['title']` read by the print at line
180, so a missing `event` or missing title raises inside the `try` and
returns `None`; otherwise `result['event']` is returned as is, its
remaining fields unchecked. -/
def verify_event_with_gemini_raw : GeminiRawResp → Option EventPayload
  | .parsed true (some p) =>
    match p.title with
    | some _ => some p
    | none => none
  | _ => none

/-- A catalog entry as the merge loop really sees it: a possibly partial
event dict plus the `id` of line 290. -/
structure PEvent extends EventPayload where
  id : Nat
deriving Repr, DecidableEq

/-- A well-formed catalog event viewed as a payload dict with every field
present. -/
def Event.toP (e : Event) : PEvent :=
  { title := some e.title, date := some e.date, category := some e.category,
    price := some e.price, venue := some e.venue,
    description := some e.description, link := some e.link,
    emoji := some e.emoji, id := e.id }

/-- Line 225 on a possibly partial event: `event['title']` and
`event['venue']` are read to build the dedup key; a missing field raises
`KeyError`, modelled as the error outcome. -/
def pkey (e : PEvent) : Except Unit String :=
  match e.title, e.venue with
  | some t, some v => .ok (lowerStr t ++ "_" ++ lowerStr v)
  | _, _ => .error ()

/-- The loop of `deduplicate_events` (lines 219-230) over possibly partial
events: the first event whose key fields are missing raises, aborting the
whole call. -/
def dedupP_from (seen : List String) : List PEvent → Except Unit (List PEvent)
  | [] => .ok []
  | e :: rest =>
    match pkey e with
    | .error u => .error u
    | .ok k =>
      if k ∈ seen then dedupP_from seen rest
      else
        match dedupP_from (k :: seen) rest with
        | .ok out => .ok (e :: out)
        | .error u => .error u

/-- `deduplicate_events` over possibly partial events. -/
def deduplicate_events_p (events : List PEvent) : Except Unit (List PEvent) :=
  dedupP_from [] events

/-- The collaborators of a run, with the Gemini endpoint returning raw,
possibly partial payloads. -/
structure CollabP where
  searchPage : String → Except Unit (List RawHit)
  headReq : String → Except Unit Nat
  getReq : String → Except Unit Nat
  gemini : Candidate → GeminiRawResp

/-- The per-candidate body of lines 277-294 in the raw model: a returned
payload — complete or not — is given `id = len(existing) + len(new) + 1`
and appended; no field beyond the title (read inside the `try`) is
touched here. -/
def process_candidate_p (c : CollabP) (existingLen : Nat)
    (acc : List PEvent) (cand : Candidate) : List PEvent :=
  if verify_link (c.headReq cand.link) (c.getReq cand.link) then
    match verify_event_with_gemini_raw (c.gemini cand) with
    | some p => acc ++ [{ toEventPayload := p, id := existingLen + acc.length + 1 }]
    | none => acc
  else acc

/-- The per-query body of lines 271-294 in the raw model. -/
def process_query_p (c : CollabP) (existingLen : Nat)
    (acc : List PEvent) (query : String) : List PEvent :=
  (search_google_events query (c.searchPage query)).foldl
    (process_candidate_p c existingLen) acc

/-- The `new_events` list of lines 268-294 in the raw model: total — no
collaborator outcome can abort the collection phase. -/
def collect_new_events_p (c : CollabP) (existingLen : Nat) : List PEvent :=
  SEARCH_QUERIES.foldl (process_query_p c existingLen) []

/-- `daily_event_update` (lines 252-311) in the raw model, for a run whose
loaded catalog is well formed: filter it, collect the new events, then
dedup the concatenation — an exception there (line 300) propagates before
`save` is reached — and otherwise save and return. -/
def daily_event_update_p (c : CollabP)
    (saveEvents : List PEvent → Except Unit Unit) (loaded : List Event) :
    Except Unit (List PEvent) :=
  match deduplicate_events_p ((remove_past_events loaded).map Event.toP ++
      collect_new_events_p c (remove_past_events loaded).length) with
  | .error u => .error u
  | .ok all =>
    match saveEvents all with
    | .ok _ => .ok all
    | .error e => .error e

/-- The payloads a single query contributes on its own: the candidate loop
of `process_candidate_p`, recording only the returned payloads. -/
def candidate_payloads (c : CollabP) (acc : List EventPayload)
    (cand : Candidate) : List EventPayload :=
  if verify_link (c.headReq cand.link) (c.getReq cand.link) then
    match verify_event_with_gemini_raw (c.gemini cand) with
    | some p => acc ++ [p]
    | none => acc
  else acc

/-- The payloads one query yields independently of every other query. -/
def query_payloads (c : CollabP) (query : String) : List EventPayload :=
  (search_google_events query (c.searchPage query)).foldl (candidate_payloads c) []

/-- A structurally parsed payload carrying only a title: valid JSON,
`is_valid` true, but an incomplete event object. -/
def payloadTitleOnly : EventPayload :=
  { title := some "x", date := none, category := none, price := none,
    venue := none, description := none, link := none, emoji := none }

/-- Collaborators whose Gemini endpoint answers the title-only payload for
the one discovered candidate. -/
def collabVenueless : CollabP :=
  { searchPage := fun q => if q = QUERY1 then .ok [hitB] else .ok []
    headReq := fun _ => .ok 200
    getReq := fun _ => .ok 200
    gemini := fun _ => .parsed true (some payloadTitleOnly) }

/-- The complete payload corresponding to `evDataB`. -/
def payloadB : EventPayload :=
  { title := some "b", date := some "Daily", category := some "festivals",
    price := some 0, venue := some "w", description := some "d",
    link := some "https://www.sistic.com.sg/x", emoji := some "x" }

/-- The same collaborators with a fully populated payload. -/
def collabComplete : CollabP :=
  { searchPage := fun q => if q = QUERY1 then .ok [hitB] else .ok []
    headReq := fun _ => .ok 200
    getReq := fun _ => .ok 200
    gemini := fun _ => .parsed true (some payloadB) }

/-! ### Helper lemmas about the partial-payload pipeline -/

/-- A payload the verifier returns has its title present (the print at
line 180 read it inside the `try`); nothing else is guaranteed. -/
theorem verify_raw_title_present (resp : GeminiRawResp) (p : EventPayload)
    (h : verify_event_with_gemini_raw resp = some p) : p.title ≠ none := by
  cases resp with
  | parsed b ev =>
    cases b with
    | false => simp [verify_event_with_gemini_raw] at h
    | true =>
      cases ev with
      | none => simp [verify_event_with_gemini_raw] at h
      | some q =>
        cases ht : q.title with
        | none => rw [verify_event_with_gemini_raw, ht] at h; cases h
        | some t =>
          rw [verify_event_with_gemini_raw, ht] at h
          obtain rfl := Option.some.inj h
          rw [ht]
          intro hc
          cases hc
  | transportFailed => simp [verify_event_with_gemini_raw] at h
  | badStatus s => simp [verify_event_with_gemini_raw] at h
  | noCandidates => simp [verify_event_with_gemini_raw] at h
  | unparsable => simp [verify_event_with_gemini_raw] at h

/-- The candidate fold preserves "every collected event has its dedup key
fields present", when every payload the verifier accepts carries a venue. -/
theorem foldl_process_candidate_p_fields (c : CollabP) (existingLen : Nat)
    (hv : ∀ cand p, verify_event_with_gemini_raw (c.gemini cand) = some p →
      p.venue ≠ none)
    (cands : List Candidate) :
    ∀ acc : List PEvent,
      (∀ e ∈ acc, e.title ≠ none ∧ e.venue ≠ none) →
      ∀ e ∈ cands.foldl (process_candidate_p c existingLen) acc,
        e.title ≠ none ∧ e.venue ≠ none := by
  induction cands with
  | nil => intro acc hacc; exact hacc
  | cons cand rest ih =>
    intro acc hacc
    rw [List.foldl_cons]
    refine ih _ ?_
    by_cases hl : verify_link (c.headReq cand.link) (c.getReq cand.link) = true
    · cases hg : verify_event_with_gemini_raw (c.gemini cand) with
      | none =>
        intro e he
        rw [process_candidate_p, if_pos hl, hg] at he
        exact hacc e he
      | some p =>
        intro e he
        rw [process_candidate_p, if_pos hl, hg] at he
        rcases List.mem_append.mp he with h1 | h2
        · exact hacc e h1
        · rcases List.mem_singleton.mp h2 with rfl
          exact ⟨verify_raw_title_present _ p hg, hv cand p hg⟩
    · intro e he
      rw [process_candidate_p, if_neg hl] at he
      exact hacc e he

/-- The key-field invariant lifted to the query fold. -/
theorem foldl_process_query_p_fields (c : CollabP) (existingLen : Nat)
    (hv : ∀ cand p, verify_event_with_gemini_raw (c.gemini cand) = some p →
      p.venue ≠ none)
    (qs : List String) :
    ∀ acc : List PEvent,
      (∀ e ∈ acc, e.title ≠ none ∧ e.venue ≠ none) →
      ∀ e ∈ qs.foldl (process_query_p c existingLen) acc,
        e.title ≠ none ∧ e.venue ≠ none := by
  induction qs with
  | nil => intro acc hacc; exact hacc
  | cons q rest ih =>
    intro acc hacc
    rw [List.foldl_cons]
    exact ih _ (foldl_process_candidate_p_fields c existingLen hv _ acc hacc)

/-- Every collected new event has its key fields present, when every
accepted payload carries a venue. -/
theorem collect_new_events_p_fields (c : CollabP) (existingLen : Nat)
    (hv : ∀ cand p, verify_event_with_gemini_raw (c.gemini cand) = some p →
      p.venue ≠ none) :
    ∀ e ∈ collect_new_events_p c existingLen, e.title ≠ none ∧ e.venue ≠ none :=
  foldl_process_query_p_fields c existingLen hv SEARCH_QUERIES []
    (by intro e he; cases he)

/-- A well-formed catalog event has every key field present. -/
theorem toP_fields (e : Event) :
    (Event.toP e).title ≠ none ∧ (Event.toP e).venue ≠ none := by
  constructor <;> · intro h; cases h

/-- On a list whose events all carry their key fields, the partial dedup
loop never raises. -/
theorem dedupP_from_total (l : List PEvent) :
    (∀ e ∈ l, e.title ≠ none ∧ e.venue ≠ none) →
    ∀ seen, ∃ out, dedupP_from seen l = .ok out := by
  induction l with
  | nil => intro _ seen; exact ⟨[], rfl⟩
  | cons e rest ih =>
    intro hc seen
    obtain ⟨ht, hv2⟩ := hc e (List.mem_cons_self _ _)
    have hrest : ∀ x ∈ rest, x.title ≠ none ∧ x.venue ≠ none :=
      fun x hx => hc x (List.mem_cons_of_mem _ hx)
    cases hts : e.title with
    | none => exact absurd hts ht
    | some t =>
      cases hvs : e.venue with
      | none => exact absurd hvs hv2
      | some v =>
        have hk : pkey e = .ok (lowerStr t ++ "_" ++ lowerStr v) := by
          rw [pkey, hts, hvs]
        by_cases hmem : lowerStr t ++ "_" ++ lowerStr v ∈ seen
        · obtain ⟨out, hout⟩ := ih hrest seen
          refine ⟨out, ?_⟩
          rw [dedupP_from, hk]
          simp only [if_pos hmem]
          exact hout
        · obtain ⟨out, hout⟩ := ih hrest ((lowerStr t ++ "_" ++ lowerStr v) :: seen)
          refine ⟨e :: out, ?_⟩
          rw [dedupP_from, hk]
          simp only [if_neg hmem, hout]

/-- Projecting the raw candidate fold to payloads: the assigned ids do not
influence which payloads are collected. -/
theorem foldl_process_candidate_p_data (c : CollabP) (existingLen : Nat)
    (cands : List Candidate) :
    ∀ acc : List PEvent,
      (cands.foldl (process_candidate_p c existingLen) acc).map
          PEvent.toEventPayload =
        cands.foldl (candidate_payloads c) (acc.map PEvent.toEventPayload) := by
  induction cands with
  | nil => intro acc; rfl
  | cons cand rest ih =>
    intro acc
    rw [List.foldl_cons, List.foldl_cons, ih]
    congr 1
    by_cases hl : verify_link (c.headReq cand.link) (c.getReq cand.link) = true
    · cases hg : verify_event_with_gemini_raw (c.gemini cand) <;>
        simp [process_candidate_p, candidate_payloads, hl, hg]
    · simp [process_candidate_p, candidate_payloads, hl]

/-- The payload fold only appends: the accumulator splits off. -/
theorem foldl_candidate_payloads_append (c : CollabP) (cands : List Candidate) :
    ∀ acc : List EventPayload,
      cands.foldl (candidate_payloads c) acc =
        acc ++ cands.foldl (candidate_payloads c) [] := by
  induction cands with
  | nil => intro acc; simp
  | cons cand rest ih =>
    intro acc
    rw [List.foldl_cons, List.foldl_cons, ih (candidate_payloads c acc cand),
      ih (candidate_payloads c [] cand)]
    have hsplit : candidate_payloads c acc cand =
        acc ++ candidate_payloads c [] cand := by
      by_cases hl : verify_link (c.headReq cand.link) (c.getReq cand.link) = true
      · cases hg : verify_event_with_gemini_raw (c.gemini cand) <;>
          simp [candidate_payloads, hl, hg]
      · simp [candidate_payloads, hl]
    rw [hsplit, List.append_assoc]

/-- One query's contribution to the collected payloads is exactly its own
`query_payloads`, on top of whatever was already collected. -/
theorem process_query_p_data (c : CollabP) (existingLen : Nat)
    (acc : List PEvent) (query : String) :
    (process_query_p c existingLen acc query).map PEvent.toEventPayload =
      acc.map PEvent.toEventPayload ++ query_payloads c query := by
  rw [process_query_p, foldl_process_candidate_p_data, query_payloads,
    foldl_candidate_payloads_append]

/-- Folding over a list of queries collects each query's own payloads in
order, after whatever was already collected. -/
theorem foldl_process_query_p_data (c : CollabP) (existingLen : Nat)
    (qs : List String) :
    ∀ acc : List PEvent,
      (qs.foldl (process_query_p c existingLen) acc).map PEvent.toEventPayload =
        acc.map PEvent.toEventPayload ++ (qs.map (query_payloads c)).flatten := by
  induction qs with
  | nil => intro acc; simp
  | cons q rest ih =>
    intro acc
    rw [List.foldl_cons, ih, process_query_p_data, List.map_cons, List.flatten,
      List.append_assoc]

/-! ### The claims -/

/-- C1: the claim says all `id`s in the merged catalog a run saves are
pairwise distinct. The code violates it: with a surviving existing catalog
`[{id := 2, date := "Daily", …}]` (one entry, so `len(existing) = 1`) and
one newly verified event, line 290 assigns the new event
`id = len(existing) + len(new) + 1 = 2`, colliding with the surviving id 2;
dedup keys differ, so both entries — with equal ids — are saved. -/
theorem c1_duplicate_ids_in_saved_catalog :
    (merged_catalog collabB loadedId2).map Event.id = [2, 2] ∧
    ¬ ((merged_catalog collabB loadedId2).map Event.id).Nodup ∧
    daily_event_update collabB (fun _ => .ok ()) loadedId2 =
      .ok (merged_catalog collabB loadedId2) := by
  have h : (merged_catalog collabB loadedId2).map Event.id = [2, 2] := by decide
  refine ⟨h, ?_, rfl⟩
  rw [h]
  decide

/-- C2 counterexample: with one surviving existing event of `id = 5`, the
single newly verified event receives `id = 2` (one plus the length of the
surviving catalog), not `max existing id + 1 = 6` as the claim states. -/
theorem c2_counterexample_ids_from_length :
    loadedId5.map Event.id = [5] ∧
    (collect_new_events collabB (remove_past_events loadedId5).length).map
      Event.id = [2] ∧
    (collect_new_events collabB (remove_past_events loadedId5).length).map
      Event.id ≠ [5 + 1] := by
  refine ⟨by decide, by decide, by decide⟩

/-- C2 (amended): newly verified events receive consecutive `id`s starting
at one plus the NUMBER of surviving existing events (not one plus their
maximum id), in the order they were verified; the merged catalog is a
sublist of survivors-then-new, so every surviving existing event appears in
it unchanged, its prior `id` included. -/
theorem c2_ids_consecutive_from_survivor_count (c : Collab) (loaded : List Event) :
    (collect_new_events c (remove_past_events loaded).length).map Event.id =
      List.range' ((remove_past_events loaded).length + 1)
        (collect_new_events c (remove_past_events loaded).length).length ∧
    List.Sublist (merged_catalog c loaded)
      (remove_past_events loaded ++
        collect_new_events c (remove_past_events loaded).length) :=
  ⟨collect_new_events_ids c _, dedup_from_sublist _ []⟩

/-- C3 counterexample: a Gemini-verified event whose date text "12 Nov"
fails the still-relevant predicate is nevertheless written to the final
catalog — newly verified events are never staleness-filtered in the run
that adds them. -/
theorem c3_counterexample_new_event_not_filtered :
    merged_catalog collabNov [] = [{ toEventData := evDataNov, id := 1 }] ∧
    still_relevant evDataNov.date = false := by
  refine ⟨by decide, by decide⟩

/-- C3 (amended): every event of the final catalog is either one of this
run's newly verified events (whose date the run does not re-check) or an
existing survivor, and every existing survivor satisfies the still-relevant
predicate. -/
theorem c3_survivors_satisfy_relevance (c : Collab) (loaded : List Event)
    (e : Event) (he : e ∈ merged_catalog c loaded) :
    e ∈ collect_new_events c (remove_past_events loaded).length ∨
      still_relevant e.date = true := by
  have he' : e ∈ remove_past_events loaded ++
      collect_new_events c (remove_past_events loaded).length :=
    (dedup_from_sublist _ []).subset he
  rcases List.mem_append.mp he' with hl | hr
  · right
    rw [remove_past_events_eq_filter] at hl
    exact (List.mem_filter.mp hl).2
  · exact Or.inl hr

/-- Witness for C3 (amended) at a concrete run: the surviving existing
event `eventA2` is in the final catalog, and the theorem settles it. -/
theorem c3_survivors_satisfy_relevance_witness :
    eventA2 ∈ collect_new_events collabB (remove_past_events loadedId2).length ∨
      still_relevant eventA2.date = true :=
  c3_survivors_satisfy_relevance collabB loadedId2 eventA2 (by decide)

/-- C4 counterexample: a malformed verification result CAN abort the run.
With a save that always succeeds, a structurally parsed payload with
`is_valid` true whose event object carries a title but no venue is returned
unvalidated by the verifier, collected, and then crashes `deduplicate_events`
(the `KeyError` at line 225, reached from line 300 outside every `try`), so
the run errors before `save` — refuting "the only failure allowed to
propagate out of a run is a failure of the final `save`". -/
theorem c4_counterexample_venueless_payload_aborts :
    verify_event_with_gemini_raw (.parsed true (some payloadTitleOnly)) =
      some payloadTitleOnly ∧
    payloadTitleOnly.venue = none ∧
    daily_event_update_p collabVenueless (fun _ => .ok ()) [] = .error () := by
  refine ⟨by decide, rfl, by rfl⟩

/-- C4 (amended): transport errors, parse errors and rejected verification
results in any single query or candidate are contained — the collection
phase is total in every collaborator outcome, and each query contributes
exactly its own payloads, so no unit's failure prevents the remaining
queries and candidates from being processed. One malformed-verification
shape escapes containment: an accepted payload lacking a venue crashes the
merge-time dedup before `save`. Whenever every accepted payload carries a
venue, dedup succeeds and the only failure that can propagate out of the
run is a failure of the final `save`. -/
theorem c4_contained_unless_venueless_payload (c : CollabP)
    (saveEvents : List PEvent → Except Unit Unit) (loaded : List Event)
    (hv : ∀ cand p, verify_event_with_gemini_raw (c.gemini cand) = some p →
      p.venue ≠ none) :
    (collect_new_events_p c (remove_past_events loaded).length).map
        PEvent.toEventPayload =
      (SEARCH_QUERIES.map (query_payloads c)).flatten ∧
    ∃ all,
      deduplicate_events_p ((remove_past_events loaded).map Event.toP ++
        collect_new_events_p c (remove_past_events loaded).length) = .ok all ∧
      (∀ err, daily_event_update_p c saveEvents loaded = .error err →
        saveEvents all = .error err) ∧
      ((∀ l, saveEvents l = .ok ()) →
        daily_event_update_p c saveEvents loaded = .ok all) := by
  constructor
  · simpa using foldl_process_query_p_data c (remove_past_events loaded).length
      SEARCH_QUERIES []
  · have hcomplete : ∀ e ∈ (remove_past_events loaded).map Event.toP ++
        collect_new_events_p c (remove_past_events loaded).length,
        e.title ≠ none ∧ e.venue ≠ none := by
      intro e he
      rcases List.mem_append.mp he with hl | hr
      · rcases List.mem_map.mp hl with ⟨ev, _, rfl⟩
        exact toP_fields ev
      · exact collect_new_events_p_fields c _ hv e hr
    obtain ⟨all, hall⟩ := dedupP_from_total _ hcomplete []
    have hall' : deduplicate_events_p ((remove_past_events loaded).map Event.toP ++
        collect_new_events_p c (remove_past_events loaded).length) = .ok all := hall
    have hd : daily_event_update_p c saveEvents loaded =
        (match saveEvents all with
          | .ok _ => Except.ok all
          | .error e => Except.error e) := by
      rw [daily_event_update_p, hall']
    refine ⟨all, hall', ?_, ?_⟩
    · intro err h
      rw [hd] at h
      cases hs : saveEvents all with
      | ok u =>
        rw [hs] at h
        simp at h
      | error e2 =>
        rw [hs] at h
    · intro hok
      rw [hd, hok all]

/-- Witness for C4 (amended) at a concrete run whose one accepted payload
is complete: the theorem's hypotheses are discharged at `collabComplete`. -/
theorem c4_contained_unless_venueless_payload_witness :
    (collect_new_events_p collabComplete
        (remove_past_events ([] : List Event)).length).map PEvent.toEventPayload =
      (SEARCH_QUERIES.map (query_payloads collabComplete)).flatten ∧
    ∃ all,
      deduplicate_events_p ((remove_past_events ([] : List Event)).map Event.toP ++
        collect_new_events_p collabComplete
          (remove_past_events ([] : List Event)).length) = .ok all ∧
      (∀ err, daily_event_update_p collabComplete
          (fun _ => Except.ok ()) [] = .error err →
        Except.ok () = .error err) ∧
      ((∀ _l : List PEvent, (Except.ok () : Except Unit Unit) = .ok ()) →
        daily_event_update_p collabComplete (fun _ => Except.ok ()) [] = .ok all) :=
  c4_contained_unless_venueless_payload collabComplete (fun _ => .ok ()) []
    (fun cand p h => by
      have h2 : payloadB = p := Option.some.inj h
      rw [← h2]
      intro hc
      cases hc)

/-- C5 counterexample: a HEAD request that arrives with the HTTP-success
status 204 makes `verify_link` answer `false` — the code compares against
200 exactly and falls back to GET only when HEAD raises — while the
behaviour the spec describes (success-class statuses accepted, fallback on
ambiguous responses) would answer `true`. -/
theorem c5_counterexample_success_class :
    verify_link (.ok 204) (.ok 204) = false ∧
    verify_link_claimed (.ok 204) (.ok 204) = true ∧
    200 ≤ 204 ∧ 204 < 300 := by
  refine ⟨by decide, by decide, by decide, by decide⟩

/-- C5 (amended): the validator first consults the HEAD outcome and falls
back to the GET outcome only when HEAD raised (not on an ambiguous status);
it returns true exactly when the outcome consulted is a response with
status exactly 200, and false when both attempts raise. -/
theorem c5_true_iff_consulted_attempt_200 (headResp getResp : Except Unit Nat) :
    verify_link headResp getResp = true ↔
      (headResp = .ok 200 ∨ (headResp = .error () ∧ getResp = .ok 200)) := by
  cases headResp with
  | ok s => simp [verify_link]
  | error u =>
    cases u
    cases getResp with
    | ok t => simp [verify_link]
    | error v => cases v; simp [verify_link]

/-- C6: merging is dedup over survivors-then-new: the result is a sublist
of that concatenation (so survivors come first, each part in its original
order, every kept record unchanged); its keys are pairwise distinct; every
input key stays represented; a new event whose key an existing event
already carries is discarded; and when the existing keys are distinct (as
they are for any catalog a run saved), every existing event survives —
in particular an existing entry wins, `id` preserved, over a new duplicate. -/
theorem c6_merge_is_first_key_wins (ex nw : List Event) :
    List.Sublist (deduplicate_events (ex ++ nw)) (ex ++ nw) ∧
    ((deduplicate_events (ex ++ nw)).map event_key).Nodup ∧
    (∀ e ∈ ex ++ nw, event_key e ∈ (deduplicate_events (ex ++ nw)).map event_key) ∧
    (∀ n ∈ nw, n ∉ ex → (∃ e ∈ ex, event_key e = event_key n) →
      n ∉ deduplicate_events (ex ++ nw)) ∧
    ((ex.map event_key).Nodup → ∀ e ∈ ex, e ∈ deduplicate_events (ex ++ nw)) := by
  refine ⟨dedup_from_sublist _ [], dedup_from_keys_nodup _ [], ?_, ?_, ?_⟩
  · intro e he
    exact key_mem_dedup_from _ [] e he (by simp)
  · intro n hn hnex ⟨e, he, hkey⟩ hmem
    rcases mem_dedup_from_append ex nw [] n hmem with hl | ⟨seen2, hcov, _, hmem2⟩
    · exact hnex ((dedup_from_sublist ex []).subset hl)
    · exact key_not_seen_of_mem_dedup_from nw seen2 n hmem2 (hkey ▸ hcov e he)
  · intro hnd e he
    exact mem_dedup_from_of_mem_left ex nw [] hnd (by simp) e he

/-- The spec's merge scenario as a concrete instance: an existing
"Glow Festival" at "Gardens" with `id = 1` meets a newly verified duplicate;
exactly the existing entry remains, `id` preserved. -/
theorem c6_merge_is_first_key_wins_witness :
    deduplicate_events ([glowExisting] ++ [glowNew]) = [glowExisting] ∧
    glowExisting.id = 1 ∧ event_key glowNew = event_key glowExisting := by
  refine ⟨by decide, by decide, by decide⟩

/-- C7: the staleness filter is the pointwise filter of a pure predicate of
the `date` text alone; an event dated "Daily" is retained whatever its
other fields; an event dated "12 Nov" is removed whatever its other
fields. -/
theorem c7_staleness_pure_predicate :
    (∀ events : List Event,
        remove_past_events events = events.filter (fun e => still_relevant e.date)) ∧
    (∀ e : Event, e.date = "Daily" → remove_past_events [e] = [e]) ∧
    (∀ e : Event, e.date = "12 Nov" → remove_past_events [e] = []) := by
  refine ⟨remove_past_events_eq_filter, ?_, ?_⟩
  · intro e h
    have hd : still_relevant e.date = true := by rw [h]; decide
    rw [remove_past_events_eq_filter]
    simp [List.filter_cons, hd]
  · intro e h
    have hd : still_relevant e.date = false := by rw [h]; decide
    rw [remove_past_events_eq_filter]
    simp [List.filter_cons, hd]

/-- Witness for C7 on concrete events: the "Daily" event `eventA2` is kept
and the "12 Nov"-style record is dropped, via the theorem. -/
theorem c7_staleness_pure_predicate_witness :
    remove_past_events [eventA2] = [eventA2] := by
  exact c7_staleness_pure_predicate.2.1 eventA2 rfl

/-- C8: deduplication is idempotent. -/
theorem c8_dedup_idempotent (events : List Event) :
    deduplicate_events (deduplicate_events events) = deduplicate_events events :=
  dedup_from_idem events []

/-- C9: for every query, discovery returns at most 5 candidates; on a
successfully fetched page they form a sublist (hence in page order) of the
surviving hits, and each returned candidate comes from a raw hit that had
both a title element and a link element — a hit missing either is dropped
by `hit_to_candidate` and never becomes a candidate. -/
theorem c9_discovery_capped_and_sourced (query : String)
    (page : Except Unit (List RawHit)) :
    (search_google_events query page).length ≤ 5 ∧
    ∀ hits, page = .ok hits →
      List.Sublist (search_google_events query page) (collect_results query hits) ∧
      ∀ cand ∈ search_google_events query page,
        ∃ h ∈ hits, h.titleElem ≠ none ∧ h.linkElem ≠ none ∧
          hit_to_candidate query h = some cand := by
  constructor
  · cases page with
    | error u => simp [search_google_events]
    | ok hits =>
      simp only [search_google_events, List.length_take]
      exact Nat.min_le_left _ _
  · rintro hits rfl
    constructor
    · exact List.take_sublist 5 _
    · intro cand hc
      have hc' : cand ∈ collect_results query hits :=
        (List.take_sublist 5 _).subset hc
      rw [collect_results_eq_filterMap] at hc'
      rcases List.mem_filterMap.mp hc' with ⟨h, hh, hsome⟩
      exact ⟨h, hh, (hit_to_candidate_needs_title_link query h cand hsome).1,
        (hit_to_candidate_needs_title_link query h cand hsome).2, hsome⟩

/-- C10: an event whose date text satisfies neither arm of the retention
test is never in the filter's output — unrecognized date text, the empty
string included, defaults to "drop". -/
theorem c10_unrecognized_date_defaults_to_drop :
    (∀ (events : List Event) (e : Event), still_relevant e.date = false →
        e ∉ remove_past_events events) ∧
    still_relevant "" = false := by
  constructor
  · intro events e h hmem
    rw [remove_past_events_eq_filter] at hmem
    have ht := (List.mem_filter.mp hmem).2
    rw [h] at ht
    cases ht
  · decide

end WhatsUp
